import Mathlib

/-!
Shallow embedding of the Wallet-adapter dashboard (Shrey-Vats/Wallet-adapter).

The repository contains two variants of the dashboard component:
  * `App`    — the component mounted by `main.tsx` (source file given as
               `src/unnamed/part_001`, i.e. `src/App.tsx`);
  * `NewApp` — the older variant in `src/src/newApp.tsx`.

Handlers are embedded as pure functions from an external environment
(`Env`, the RPC connection plus `new PublicKey` parsing), a wallet
snapshot (`Wallet`) and the component state, to the updated state
together with the list of external calls the handler issued (`Call`)
and an outcome.  JS numbers that only ever hold integral lamport counts
are `Nat`; displayed/compared amounts (which undergo division by
`LAMPORTS_PER_SOL`) are `ℚ`.  A text input holding a number is modelled
by its parsed value, `none` for the empty field (`Number("") = 0`,
captured by `numVal`).
-/

namespace WalletDash

/-- Lamports per SOL, the constant imported from `@solana/web3.js`. -/
def LAMPORTS_PER_SOL : ℚ := 1000000000

/-- JS `Number(field)` on a numeric input field modelled as `Option ℚ`:
the empty field parses to `0`. -/
def numVal : Option ℚ → ℚ
  | none => 0
  | some q => q

/-- Result of `connection.getLatestBlockhash()`. -/
structure BlockRef where
  blockhash : String
  lastValidBlockHeight : Nat
  deriving DecidableEq, Repr

/-- One entry of the `connection.getSignaturesForAddress` response
(`ConfirmedSignatureInfo`): `blockTime` and `confirmationStatus` are
optional in the RPC response. -/
structure SigInfo where
  signature : String
  blockTime : Option Int
  confirmationStatus : Option String
  err : Option String
  deriving DecidableEq, Repr

/-- One entry of the `getParsedTokenAccountsByOwner` response: the
account's own lamport balance and the parsed token amount it holds. -/
structure TokenAccount where
  pubkey : String
  lamports : Nat
  tokenAmount : Nat
  deriving DecidableEq, Repr

/-- Result of `getTokenMetadata` when it returns (it may also return
null, modelled by `Option` at the call site, or throw). -/
structure TokenMetadata where
  name : String
  symbol : String
  deriving DecidableEq, Repr

/-- The `Token` interface of the component. -/
structure Token where
  name : String
  symbol : String
  balance : Nat
  pubKey : String
  deriving DecidableEq, Repr

/-- The `TransactionItem` interface of the component.  `time` is the
`Date` value in milliseconds since the Unix epoch.  `status` holds the
runtime value stored by the handler: the chain-reported status string
when present, `none` when the chain omitted it (the code's
`tx.confirmationStatus!` is a type-level assertion only and does not
change the runtime value). -/
structure TransactionItem where
  signature : String
  time : Int
  status : Option String
  err : Option String
  deriving DecidableEq, Repr

/-- External calls a handler can issue (network requests plus the
throwing `new PublicKey` recipient parse). -/
inductive Call where
  | getBalance (pk : String)
  | requestAirdrop (pk : String) (lamports : ℚ)
  | getLatestBlockhash
  | confirmTransaction (blockhash : String) (lastValidBlockHeight : Nat) (signature : String)
  | parsePubkey (address : String)
  | sendTransaction (fromPk toPk : String) (lamports : ℚ)
  | getParsedTokenAccountsByOwner (pk : String)
  | getTokenMetadata (account : String)
  | getSignaturesForAddress (pk : String) (limit : Nat)
  deriving DecidableEq, Repr

/-- The external world a single handler run observes: each RPC method is
a fixed response (success value or thrown error), and `parsePubkey`
models the throwing `new PublicKey(address)` constructor.
`signaturesForAddress` is the chain's full history, most recent first;
the library applies the requested `limit` (`List.take`) per its
documented contract. -/
structure Env where
  getBalance : Except Unit Nat
  requestAirdrop : ℚ → Except Unit String
  getLatestBlockhash : Except Unit BlockRef
  confirmTransaction : String → Nat → String → Except Unit Unit
  sendTransaction : Except Unit String
  parsedTokenAccountsByOwner : Except Unit (List TokenAccount)
  getTokenMetadata : TokenAccount → Except Unit (Option TokenMetadata)
  signaturesForAddress : Except Unit (List SigInfo)
  parsePubkey : String → Option String

/-- Snapshot of the wallet adapter: connection state, public key, and
the optional `signMessage` capability (modelled as returning the
signature bytes for given message bytes). -/
structure Wallet where
  connected : Bool
  publicKey : Option String
  signMessage : Option (List Nat → List Nat)

/-- Alert/termination outcome of a handler. -/
inductive Outcome where
  | success
  | failure
  | skipped
  deriving DecidableEq, Repr

/-- The distinct throw sites of the send-transfer handlers. -/
inductive SendError where
  | walletDisconnected
  | insufficientBalance
  | invalidRecipient
  | network
  deriving DecidableEq, Repr

/-- Outcome of the sign-verification handler. -/
inductive SignResult where
  | verified
  | failed
  deriving DecidableEq, Repr

/-- UTF-8 bytes of a string, as produced by `TextEncoder.encode`. -/
def encodeMessage (s : String) : List Nat :=
  s.toUTF8.toList.map UInt8.toNat

/-- JS `x || d` on an optional string field: the fallback fires when the
field is absent or the empty string (both falsy). -/
def strOr (x : Option String) (d : String) : String :=
  match x with
  | none => d
  | some v => if v = "" then d else v

namespace App

/-- UI state of the mounted `App` component (`src/App.tsx`, part_001). -/
structure AppState where
  balance : ℚ
  airdropAmount : Option ℚ
  receiverAddress : String
  lamportsToTransfer : Option ℚ
  userTokens : List Token
  transactions : List TransactionItem
  isLoadingBalance : Bool
  isAirdropping : Bool
  isSending : Bool
  deriving Repr

/-- `handleShowBalance` of `App`: guard on `wallet.publicKey`, set the
loading flag, fetch the balance, store `balance / LAMPORTS_PER_SOL` on
success, log only on failure, clear the flag in `finally`. -/
def handleShowBalance (env : Env) (w : Wallet) (s : AppState) : AppState × List Call :=
  match w.publicKey with
  | none => (s, [])
  | some pk =>
    let s1 := { s with isLoadingBalance := true }
    match env.getBalance with
    | .ok lam =>
      ({ s1 with balance := (lam : ℚ) / LAMPORTS_PER_SOL, isLoadingBalance := false },
        [Call.getBalance pk])
    | .error _ =>
      ({ s1 with isLoadingBalance := false }, [Call.getBalance pk])

/-- `handleFetchHistory` of `App`: guard on connection and key, request
the 10 most recent signatures, map each to a `TransactionItem`
(`time = (blockTime || 0) * 1000`, `status = confirmationStatus!`,
passed through unchanged), replace the list on success, log only on
failure. -/
def handleFetchHistory (env : Env) (w : Wallet) (s : AppState) : AppState × List Call :=
  match w.publicKey with
  | none => (s, [])
  | some pk =>
    if !w.connected then (s, [])
    else
      match env.signaturesForAddress with
      | .error _ => (s, [Call.getSignaturesForAddress pk 10])
      | .ok sigs =>
        ({ s with transactions :=
            (sigs.take 10).map fun tx =>
              { signature := tx.signature
                time := (tx.blockTime.getD 0) * 1000
                status := tx.confirmationStatus
                err := tx.err } },
          [Call.getSignaturesForAddress pk 10])

/-- `handleAirdrop` of `App`: guard on key and a non-empty amount
field, then request `Number(amount) * LAMPORTS_PER_SOL` lamports, fetch
the latest blockhash, confirm the airdrop signature, and on success
re-run the balance refresh; the `finally` block clears the in-flight
flag and empties the amount field on every non-skipped path. -/
def handleAirdrop (env : Env) (w : Wallet) (s : AppState) : AppState × List Call × Outcome :=
  match w.publicKey, s.airdropAmount with
  | some pk, some amt =>
    let lam := amt * LAMPORTS_PER_SOL
    let s1 := { s with isAirdropping := true }
    let fin := fun (st : AppState) (calls : List Call) (o : Outcome) =>
      ({ st with isAirdropping := false, airdropAmount := none }, calls, o)
    match env.requestAirdrop lam with
    | .error _ => fin s1 [Call.requestAirdrop pk lam] Outcome.failure
    | .ok sig =>
      match env.getLatestBlockhash with
      | .error _ =>
        fin s1 [Call.requestAirdrop pk lam, Call.getLatestBlockhash] Outcome.failure
      | .ok ref =>
        match env.confirmTransaction ref.blockhash ref.lastValidBlockHeight sig with
        | .error _ =>
          fin s1 [Call.requestAirdrop pk lam, Call.getLatestBlockhash,
            Call.confirmTransaction ref.blockhash ref.lastValidBlockHeight sig]
            Outcome.failure
        | .ok _ =>
          let (s2, c2) := handleShowBalance env w s1
          fin s2 ([Call.requestAirdrop pk lam, Call.getLatestBlockhash,
            Call.confirmTransaction ref.blockhash ref.lastValidBlockHeight sig] ++ c2)
            Outcome.success
  | _, _ => (s, [], Outcome.skipped)

/-- Fixed literal message signed by `handleSignMessage` of `App`. -/
def message : String := "Verify your account by signing this message"

/-- `handleSignMessage` of `App`: throw unless the key and the
`signMessage` capability are present, sign the UTF-8 encoding of the
fixed message, and throw unless `ed25519.verify` accepts the returned
signature against the encoded message and the wallet's key bytes; every
throw is caught and surfaced as the generic failure alert.  The
external verifier and the key-byte encoding are parameters. -/
def handleSignMessage (verify : List Nat → List Nat → List Nat → Bool)
    (pkBytes : String → List Nat) (w : Wallet) : SignResult :=
  match w.publicKey, w.signMessage with
  | some pk, some signFn =>
    let enc := encodeMessage message
    let sig := signFn enc
    if verify sig enc (pkBytes pk) then SignResult.verified else SignResult.failed
  | _, _ => SignResult.failed

/-- `handleSendTokens` of `App`: throw if disconnected, set the sending
flag, parse the recipient (`new PublicKey`, throwing on a malformed
address), build a transfer of `Number(amount) * LAMPORTS_PER_SOL`
lamports, have the wallet sign and submit it, confirm it, then alert
success and re-run the balance and history refreshes; `finally` clears
the sending flag on every path.  There is no balance precondition in
this variant. -/
def handleSendTokens (env : Env) (w : Wallet) (s : AppState) :
    AppState × List Call × Except SendError Unit :=
  match w.publicKey with
  | none => ({ s with isSending := false }, [], .error SendError.walletDisconnected)
  | some pk =>
    if !w.connected then
      ({ s with isSending := false }, [], .error SendError.walletDisconnected)
    else
      let s1 := { s with isSending := true }
      match env.parsePubkey s.receiverAddress with
      | none =>
        ({ s1 with isSending := false }, [Call.parsePubkey s.receiverAddress],
          .error SendError.invalidRecipient)
      | some toAddr =>
        let lam := numVal s.lamportsToTransfer * LAMPORTS_PER_SOL
        match env.sendTransaction with
        | .error _ =>
          ({ s1 with isSending := false },
            [Call.parsePubkey s.receiverAddress, Call.sendTransaction pk toAddr lam],
            .error SendError.network)
        | .ok sig =>
          match env.getLatestBlockhash with
          | .error _ =>
            ({ s1 with isSending := false },
              [Call.parsePubkey s.receiverAddress, Call.sendTransaction pk toAddr lam,
                Call.getLatestBlockhash],
              .error SendError.network)
          | .ok ref =>
            match env.confirmTransaction ref.blockhash ref.lastValidBlockHeight sig with
            | .error _ =>
              ({ s1 with isSending := false },
                [Call.parsePubkey s.receiverAddress, Call.sendTransaction pk toAddr lam,
                  Call.getLatestBlockhash,
                  Call.confirmTransaction ref.blockhash ref.lastValidBlockHeight sig],
                .error SendError.network)
            | .ok _ =>
              let (s2, c2) := handleShowBalance env w s1
              let (s3, c3) := handleFetchHistory env w s2
              ({ s3 with isSending := false },
                [Call.parsePubkey s.receiverAddress, Call.sendTransaction pk toAddr lam,
                  Call.getLatestBlockhash,
                  Call.confirmTransaction ref.blockhash ref.lastValidBlockHeight sig]
                  ++ c2 ++ c3,
                .ok ())

/-- Per-account body of `fetchTokens`: resolve the metadata (`none`
when `getTokenMetadata` throws, so the account is dropped), fall back
on falsy name/symbol, and store the account's own lamport balance in
the `balance` field. -/
def toToken (env : Env) (acc : TokenAccount) : Option Token :=
  match env.getTokenMetadata acc with
  | .error _ => none
  | .ok m =>
    some { name := strOr (m.map TokenMetadata.name) "Unknown Token"
           symbol := strOr (m.map TokenMetadata.symbol) "UNK"
           balance := acc.lamports
           pubKey := acc.pubkey }

/-- `fetchTokens` of `App`: guard on the key, enumerate parsed
token-2022 accounts, resolve each account's metadata (dropping the ones
whose resolution throws), and replace the token list; on outer
enumeration failure, log only. -/
def fetchTokens (env : Env) (w : Wallet) (s : AppState) : AppState × List Call :=
  match w.publicKey with
  | none => (s, [])
  | some pk =>
    match env.parsedTokenAccountsByOwner with
    | .error _ => (s, [Call.getParsedTokenAccountsByOwner pk])
    | .ok accounts =>
      ({ s with userTokens := accounts.filterMap (toToken env) },
        Call.getParsedTokenAccountsByOwner pk
          :: accounts.map fun a => Call.getTokenMetadata a.pubkey)

/-- Body of the `useEffect` on `[wallet.connected, connection]`: when
connected, run the balance, token and history refreshes; otherwise
reset balance, token list and transaction list. -/
def connectionEffect (env : Env) (w : Wallet) (s : AppState) : AppState × List Call :=
  if w.connected then
    let (s1, c1) := handleShowBalance env w s
    let (s2, c2) := fetchTokens env w s1
    let (s3, c3) := handleFetchHistory env w s2
    (s3, c1 ++ c2 ++ c3)
  else
    ({ s with balance := 0, userTokens := [], transactions := [] }, [])

end App

namespace NewApp

/-- UI state of the `newApp.tsx` variant.  Its `balance` field is set
from `getBalance` without scaling. -/
structure State where
  balance : ℚ
  airdropAmount : Option ℚ
  reciverAddress : String
  lamportsToTransfer : Option ℚ
  isBalanceGet : Bool
  isFeatchingBalance : Bool
  isAirdroping : Bool
  deriving Repr

/-- `handleShowBalance` of `newApp.tsx`: set both flags, throw if the
key is absent, fetch the balance and store the raw lamport value
(no division), alert on failure, clear the fetching flag in
`finally`. -/
def handleShowBalance (env : Env) (w : Wallet) (s : State) : State × List Call :=
  let s1 := { s with isBalanceGet := true, isFeatchingBalance := true }
  match w.publicKey with
  | none => ({ s1 with isFeatchingBalance := false }, [])
  | some pk =>
    match env.getBalance with
    | .ok lam =>
      ({ s1 with balance := (lam : ℚ), isFeatchingBalance := false }, [Call.getBalance pk])
    | .error _ => ({ s1 with isFeatchingBalance := false }, [Call.getBalance pk])

/-- `handleAirdrop` of `newApp.tsx`: set the flag, throw if the key is
absent, request `Number(airdropAmount) * LAMPORTS_PER_SOL` lamports and
stop there — no blockhash fetch, no confirmation, no balance refresh,
and the amount field is never cleared; `finally` clears the flag. -/
def handleAirdrop (env : Env) (w : Wallet) (s : State) : State × List Call × Outcome :=
  let s1 := { s with isAirdroping := true }
  match w.publicKey with
  | none => ({ s1 with isAirdroping := false }, [], Outcome.failure)
  | some pk =>
    let lam := numVal s.airdropAmount * LAMPORTS_PER_SOL
    match env.requestAirdrop lam with
    | .ok _ => ({ s1 with isAirdroping := false }, [Call.requestAirdrop pk lam], Outcome.success)
    | .error _ =>
      ({ s1 with isAirdroping := false }, [Call.requestAirdrop pk lam], Outcome.failure)

/-- `handleSendTokens` of `newApp.tsx`: throw if disconnected; throw
`Insifficent balance` when `Number(lamportsToTransfer) >= Number(balance)`
— before the recipient is parsed and before any network call; otherwise
parse the recipient, build the transfer of
`Number(amount) * LAMPORTS_PER_SOL` lamports, and have the wallet sign
and submit it.  It touches no state fields. -/
def handleSendTokens (env : Env) (w : Wallet) (s : State) :
    List Call × Except SendError String :=
  if !w.connected then ([], .error SendError.walletDisconnected)
  else
    match w.publicKey with
    | none => ([], .error SendError.walletDisconnected)
    | some pk =>
      if numVal s.lamportsToTransfer ≥ s.balance then
        ([], .error SendError.insufficientBalance)
      else
        match env.parsePubkey s.reciverAddress with
        | none => ([Call.parsePubkey s.reciverAddress], .error SendError.invalidRecipient)
        | some toAddr =>
          let lam := numVal s.lamportsToTransfer * LAMPORTS_PER_SOL
          match env.sendTransaction with
          | .ok sig =>
            ([Call.parsePubkey s.reciverAddress, Call.sendTransaction pk toAddr lam], .ok sig)
          | .error _ =>
            ([Call.parsePubkey s.reciverAddress, Call.sendTransaction pk toAddr lam],
              .error SendError.network)

end NewApp

/-- Whether `getTokenMetadata` throws for this account (so `fetchTokens`
drops it). -/
def resolutionFails (env : Env) (a : TokenAccount) : Bool :=
  match env.getTokenMetadata a with
  | .error _ => true
  | .ok _ => false

/-- The confirmation statuses the `TransactionItem` interface allows:
the three chain statuses plus the literal `unknown`. -/
def allowedStatus (st : Option String) : Bool :=
  st == some "processed" || st == some "confirmed" ||
    st == some "finalized" || st == some "unknown"

/-- Two parsed token-2022 accounts; metadata resolution will fail for
the second one in `sampleEnvOk`. -/
def sampleTokenAccounts : List TokenAccount :=
  [{ pubkey := "ACC1", lamports := 2039280, tokenAmount := 777 },
   { pubkey := "ACC2", lamports := 300, tokenAmount := 12 }]

/-- An environment where every call succeeds: balance 2.5 SOL in
lamports, two token accounts (metadata resolution throwing for the
second), and one history entry with absent block time and absent
confirmation status. -/
def sampleEnvOk : Env where
  getBalance := .ok 2500000000
  requestAirdrop := fun _ => .ok "ASIG"
  getLatestBlockhash := .ok { blockhash := "BH", lastValidBlockHeight := 42 }
  confirmTransaction := fun _ _ _ => .ok ()
  sendTransaction := .ok "TSIG"
  parsedTokenAccountsByOwner := .ok sampleTokenAccounts
  getTokenMetadata := fun a =>
    if a.pubkey = "ACC2" then .error ()
    else .ok (some { name := "GoldCoin", symbol := "GLD" })
  signaturesForAddress :=
    .ok [{ signature := "SIG1", blockTime := none, confirmationStatus := none, err := none }]
  parsePubkey := fun a => some a

/-- An environment where every call throws. -/
def sampleEnvErr : Env where
  getBalance := .error ()
  requestAirdrop := fun _ => .error ()
  getLatestBlockhash := .error ()
  confirmTransaction := fun _ _ _ => .error ()
  sendTransaction := .error ()
  parsedTokenAccountsByOwner := .error ()
  getTokenMetadata := fun _ => .error ()
  signaturesForAddress := .error ()
  parsePubkey := fun _ => none

/-- A connected wallet whose signer echoes the message bytes. -/
def sampleWallet : Wallet where
  connected := true
  publicKey := some "PK"
  signMessage := some fun l => l

/-- A disconnected wallet. -/
def offWallet : Wallet where
  connected := false
  publicKey := none
  signMessage := none

/-- App state with cached balance 3.5 and an entered transfer amount of
5, the insufficient-balance scenario of the specification. -/
def sampleState : App.AppState where
  balance := 7/2
  airdropAmount := some 1
  receiverAddress := "TO"
  lamportsToTransfer := some 5
  userTokens := []
  transactions := []
  isLoadingBalance := false
  isAirdropping := false
  isSending := false

/-- The same scenario for the `newApp.tsx` variant. -/
def sampleNewState : NewApp.State where
  balance := 7/2
  airdropAmount := some 1
  reciverAddress := "TO"
  lamportsToTransfer := some 5
  isBalanceGet := false
  isFeatchingBalance := false
  isAirdroping := false

/-- C5: on every wallet-connection-state transition to disconnected the
effect resets the balance to 0, the token list to the empty list and
the transaction list to the empty list, whatever the caches held. -/
theorem disconnect_resets_caches (env : Env) (w : Wallet) (s : App.AppState)
    (h : w.connected = false) :
    (App.connectionEffect env w s).1.balance = 0 ∧
    (App.connectionEffect env w s).1.userTokens = [] ∧
    (App.connectionEffect env w s).1.transactions = [] := by
  simp [App.connectionEffect, h]

theorem disconnect_resets_caches_witness :
    (App.connectionEffect sampleEnvOk offWallet sampleState).1.balance = 0 ∧
    (App.connectionEffect sampleEnvOk offWallet sampleState).1.userTokens = [] ∧
    (App.connectionEffect sampleEnvOk offWallet sampleState).1.transactions = [] :=
  disconnect_resets_caches sampleEnvOk offWallet sampleState rfl

/-- C6: when the external call of the balance refresh, the token
enumeration, or the history fetch throws, the corresponding cached
field is left exactly as it was before the call. -/
theorem failed_refresh_preserves_caches (env : Env) (w : Wallet) (s : App.AppState) :
    (env.getBalance = .error () →
      (App.handleShowBalance env w s).1.balance = s.balance) ∧
    (env.parsedTokenAccountsByOwner = .error () →
      (App.fetchTokens env w s).1.userTokens = s.userTokens) ∧
    (env.signaturesForAddress = .error () →
      (App.handleFetchHistory env w s).1.transactions = s.transactions) := by
  refine ⟨fun h => ?_, fun h => ?_, fun h => ?_⟩
  · cases hpk : w.publicKey <;> simp [App.handleShowBalance, hpk, h]
  · cases hpk : w.publicKey <;> simp [App.fetchTokens, hpk, h]
  · cases hpk : w.publicKey with
    | none => simp [App.handleFetchHistory, hpk]
    | some pk =>
      by_cases hc : w.connected <;> simp [App.handleFetchHistory, hpk, h, hc]

theorem failed_refresh_preserves_caches_witness :
    (App.handleShowBalance sampleEnvErr sampleWallet sampleState).1.balance
        = sampleState.balance ∧
    (App.fetchTokens sampleEnvErr sampleWallet sampleState).1.userTokens
        = sampleState.userTokens ∧
    (App.handleFetchHistory sampleEnvErr sampleWallet sampleState).1.transactions
        = sampleState.transactions :=
  ⟨(failed_refresh_preserves_caches sampleEnvErr sampleWallet sampleState).1 rfl,
   (failed_refresh_preserves_caches sampleEnvErr sampleWallet sampleState).2.1 rfl,
   (failed_refresh_preserves_caches sampleEnvErr sampleWallet sampleState).2.2 rfl⟩

/-- C7: each busy-flag set by its handler is cleared when the handler
terminates, on the success path and on every failure path: the loading
flag after a balance refresh, the airdrop flag after an airdrop, and
the sending flag after a send (whose cleanup runs even on the
disconnected throw). -/
theorem busy_flags_cleared (env : Env) (w : Wallet) (s : App.AppState) :
    (w.publicKey.isSome = true →
      (App.handleShowBalance env w s).1.isLoadingBalance = false) ∧
    (w.publicKey.isSome = true → s.airdropAmount.isSome = true →
      (App.handleAirdrop env w s).1.isAirdropping = false) ∧
    (App.handleSendTokens env w s).1.isSending = false := by
  refine ⟨fun hpk => ?_, fun hpk hamt => ?_, ?_⟩
  · obtain ⟨pk, hp⟩ := Option.isSome_iff_exists.mp hpk
    cases hb : env.getBalance <;> simp [App.handleShowBalance, hp, hb]
  · obtain ⟨pk, hp⟩ := Option.isSome_iff_exists.mp hpk
    obtain ⟨amt, ha⟩ := Option.isSome_iff_exists.mp hamt
    simp only [App.handleAirdrop, hp, ha]
    repeat' split
    all_goals rfl
  · simp only [App.handleSendTokens]
    repeat' split
    all_goals rfl

theorem busy_flags_cleared_witness :
    (App.handleShowBalance sampleEnvOk sampleWallet sampleState).1.isLoadingBalance = false ∧
    (App.handleAirdrop sampleEnvOk sampleWallet sampleState).1.isAirdropping = false ∧
    (App.handleSendTokens sampleEnvOk sampleWallet sampleState).1.isSending = false :=
  ⟨(busy_flags_cleared sampleEnvOk sampleWallet sampleState).1 rfl,
   (busy_flags_cleared sampleEnvOk sampleWallet sampleState).2.1 rfl rfl,
   (busy_flags_cleared sampleEnvOk sampleWallet sampleState).2.2⟩

/-- C1 counterexample: in the mounted App component
(`src/App.tsx`, part_001), a send-transfer invocation whose entered
amount (5) is at least the cached balance (3.5) still parses the
recipient and issues the sign-and-submit request: this variant of
`handleSendTokens` performs no insufficient-balance check. -/
theorem sendTokens_app_submits_despite_insufficient :
    sampleWallet.connected = true ∧
    numVal sampleState.lamportsToTransfer ≥ sampleState.balance ∧
    Call.sendTransaction "PK" "TO" (5 * LAMPORTS_PER_SOL)
      ∈ (App.handleSendTokens sampleEnvOk sampleWallet sampleState).2.1 := by
  refine ⟨rfl, by norm_num [numVal, sampleState], ?_⟩
  have h : (App.handleSendTokens sampleEnvOk sampleWallet sampleState).2.1
      = [Call.parsePubkey "TO", Call.sendTransaction "PK" "TO" (5 * LAMPORTS_PER_SOL),
         Call.getLatestBlockhash, Call.confirmTransaction "BH" 42 "TSIG",
         Call.getBalance "PK", Call.getSignaturesForAddress "PK" 10] := rfl
  rw [h]
  exact List.mem_cons_of_mem _ (List.mem_cons_self _ _)

/-- C1 (amended): in the `newApp.tsx` variant of the handler, a
send-transfer invocation on a connected wallet whose entered amount is
at least the cached balance value is rejected with the
insufficient-balance error before any recipient parse and before any
network call (the issued-call list is empty). -/
theorem sendTokens_newApp_rejects_insufficient (env : Env) (w : Wallet) (s : NewApp.State)
    (pk : String) (amt : ℚ) (hc : w.connected = true) (hpk : w.publicKey = some pk)
    (hamt : s.lamportsToTransfer = some amt) (hge : s.balance ≤ amt) :
    NewApp.handleSendTokens env w s = ([], .error SendError.insufficientBalance) := by
  simp [NewApp.handleSendTokens, hc, hpk, hamt, numVal, hge]

theorem sendTokens_newApp_rejects_insufficient_witness :
    NewApp.handleSendTokens sampleEnvOk sampleWallet sampleNewState
      = ([], .error SendError.insufficientBalance) :=
  sendTokens_newApp_rejects_insufficient sampleEnvOk sampleWallet sampleNewState
    "PK" 5 rfl rfl rfl (by norm_num [sampleNewState])

/-- C2 counterexample: in the `newApp.tsx` variant, a successful
balance refresh for a raw balance of 2500000000 lamports stores the raw
value itself, which differs from the claimed
raw / LAMPORTS_PER_SOL. -/
theorem showBalance_newApp_stores_raw_lamports :
    (NewApp.handleShowBalance sampleEnvOk sampleWallet sampleNewState).1.balance
        = 2500000000 ∧
    (2500000000 : ℚ) ≠ (2500000000 : ℚ) / LAMPORTS_PER_SOL := by
  refine ⟨rfl, ?_⟩
  norm_num [LAMPORTS_PER_SOL]

/-- C2 (amended): in the mounted App component, every successful
balance refresh stores exactly the raw lamport balance divided by
LAMPORTS_PER_SOL, and the stored value is never negative. -/
theorem showBalance_app_scales_balance (env : Env) (w : Wallet) (s : App.AppState)
    (pk : String) (lam : Nat) (hpk : w.publicKey = some pk)
    (hbal : env.getBalance = .ok lam) :
    (App.handleShowBalance env w s).1.balance = (lam : ℚ) / LAMPORTS_PER_SOL ∧
    0 ≤ (App.handleShowBalance env w s).1.balance := by
  have h : (App.handleShowBalance env w s).1.balance = (lam : ℚ) / LAMPORTS_PER_SOL := by
    simp [App.handleShowBalance, hpk, hbal]
  refine ⟨h, ?_⟩
  rw [h, LAMPORTS_PER_SOL]
  positivity

theorem showBalance_app_scales_balance_witness :
    (App.handleShowBalance sampleEnvOk sampleWallet sampleState).1.balance
        = (2500000000 : ℚ) / LAMPORTS_PER_SOL ∧
    0 ≤ (App.handleShowBalance sampleEnvOk sampleWallet sampleState).1.balance :=
  showBalance_app_scales_balance sampleEnvOk sampleWallet sampleState "PK" 2500000000 rfl rfl

/-- C8 counterexample: in the `newApp.tsx` variant, an airdrop request
with a connected wallet and an entered amount of 1 succeeds after the
bare submission — no latest-block fetch, no confirmation wait, no
balance re-run appear in the issued-call list — and the amount field is
left holding 1 instead of being cleared. -/
theorem airdrop_newApp_no_confirm_no_clear :
    (NewApp.handleAirdrop sampleEnvOk sampleWallet sampleNewState).2.2 = Outcome.success ∧
    (NewApp.handleAirdrop sampleEnvOk sampleWallet sampleNewState).1.airdropAmount
        = some 1 ∧
    (NewApp.handleAirdrop sampleEnvOk sampleWallet sampleNewState).2.1
        = [Call.requestAirdrop "PK" (1 * LAMPORTS_PER_SOL)] :=
  ⟨rfl, rfl, rfl⟩

/-- C8 (amended): in the mounted App component, an airdrop request with
a key and an entered amount always leaves the amount field cleared, and
when the submission, block fetch and confirmation all succeed the
handler issues exactly the airdrop request for amount times
LAMPORTS_PER_SOL, then the latest-block fetch, then the confirmation of
the returned signature, then the balance re-fetch, and alerts
success. -/
theorem airdrop_app_flow (w : Wallet) (s : App.AppState) (pk : String) (amt : ℚ)
    (hpk : w.publicKey = some pk) (hamt : s.airdropAmount = some amt) :
    (∀ env : Env, (App.handleAirdrop env w s).1.airdropAmount = none) ∧
    (∀ (env : Env) (sig : String) (ref : BlockRef),
      env.requestAirdrop (amt * LAMPORTS_PER_SOL) = .ok sig →
      env.getLatestBlockhash = .ok ref →
      env.confirmTransaction ref.blockhash ref.lastValidBlockHeight sig = .ok () →
      (App.handleAirdrop env w s).2.1 =
        [Call.requestAirdrop pk (amt * LAMPORTS_PER_SOL), Call.getLatestBlockhash,
          Call.confirmTransaction ref.blockhash ref.lastValidBlockHeight sig,
          Call.getBalance pk] ∧
      (App.handleAirdrop env w s).2.2 = Outcome.success) := by
  constructor
  · intro env
    simp only [App.handleAirdrop, hpk, hamt]
    repeat' split
    all_goals rfl
  · intro env sig ref hreq hbh hconf
    simp only [App.handleAirdrop, hpk, hamt, hreq, hbh, hconf, App.handleShowBalance]
    cases env.getBalance <;> simp

theorem airdrop_app_flow_witness :
    (App.handleAirdrop sampleEnvOk sampleWallet sampleState).1.airdropAmount = none ∧
    (App.handleAirdrop sampleEnvOk sampleWallet sampleState).2.1 =
      [Call.requestAirdrop "PK" (1 * LAMPORTS_PER_SOL), Call.getLatestBlockhash,
        Call.confirmTransaction "BH" 42 "ASIG", Call.getBalance "PK"] ∧
    (App.handleAirdrop sampleEnvOk sampleWallet sampleState).2.2 = Outcome.success :=
  ⟨(airdrop_app_flow sampleWallet sampleState "PK" 1 rfl rfl).1 sampleEnvOk,
   ((airdrop_app_flow sampleWallet sampleState "PK" 1 rfl rfl).2 sampleEnvOk "ASIG"
      { blockhash := "BH", lastValidBlockHeight := 42 } rfl rfl rfl).1,
   ((airdrop_app_flow sampleWallet sampleState "PK" 1 rfl rfl).2 sampleEnvOk "ASIG"
      { blockhash := "BH", lastValidBlockHeight := 42 } rfl rfl rfl).2⟩

/-- C9: for a wallet with a public key, the sign-verification handler
reports success exactly when the signature its signer returns for the
UTF-8 encoding of the fixed literal message passes the local ed25519
check against the encoded message and the key bytes, and reports the
generic failure exactly otherwise — in particular whenever the
message-signing capability is absent. -/
theorem signMessage_verifies_exactly (verify : List Nat → List Nat → List Nat → Bool)
    (pkBytes : String → List Nat) (w : Wallet) (pk : String)
    (hpk : w.publicKey = some pk) :
    (App.handleSignMessage verify pkBytes w = SignResult.verified ↔
      ∃ f, w.signMessage = some f ∧
        verify (f (encodeMessage App.message)) (encodeMessage App.message)
          (pkBytes pk) = true) ∧
    (App.handleSignMessage verify pkBytes w = SignResult.failed ↔
      ¬ ∃ f, w.signMessage = some f ∧
        verify (f (encodeMessage App.message)) (encodeMessage App.message)
          (pkBytes pk) = true) := by
  cases hs : w.signMessage with
  | none => simp [App.handleSignMessage, hpk, hs]
  | some f =>
    by_cases hv : verify (f (encodeMessage App.message)) (encodeMessage App.message)
        (pkBytes pk) = true
    · simp [App.handleSignMessage, hpk, hs, hv]
    · simp [App.handleSignMessage, hpk, hs, hv]

theorem signMessage_verifies_exactly_witness :
    App.handleSignMessage (fun _ _ _ => true) (fun _ => []) sampleWallet
      = SignResult.verified :=
  ((signMessage_verifies_exactly (fun _ _ _ => true) (fun _ => [])
      sampleWallet "PK" rfl).1).mpr ⟨fun l => l, rfl, rfl⟩

/-- C3 (code bug): a history fetch whose single chain record carries
no block time and no confirmation status yields one record (at most the
requested 10), with timestamp equal to the Unix epoch, but with the
absent status stored unchanged — the non-null assertion
`tx.confirmationStatus!` lets the null through — so the record's status
is not drawn from the processed/confirmed/finalized/unknown set the
`TransactionItem` interface declares. -/
theorem fetchHistory_null_status_not_normalized :
    (App.handleFetchHistory sampleEnvOk sampleWallet sampleState).1.transactions
        = [{ signature := "SIG1", time := 0, status := none, err := none }] ∧
    (App.handleFetchHistory sampleEnvOk sampleWallet sampleState).1.transactions.length
        ≤ 10 ∧
    allowedStatus none = false := by
  refine ⟨rfl, ?_, rfl⟩
  decide

/-- Length of a filterMap: the input length minus the number of
elements the function drops. -/
theorem length_filterMap_eq_sub {α β : Type} (f : α → Option β) (l : List α) :
    (l.filterMap f).length = l.length - l.countP (fun a => (f a).isNone) := by
  induction l with
  | nil => rfl
  | cons a t ih =>
    have hle : t.countP (fun a => (f a).isNone) ≤ t.length := List.countP_le_length _
    cases hf : f a with
    | none => simp [List.filterMap_cons, hf, List.countP_cons, ih]
    | some b =>
      simp [List.filterMap_cons, hf, List.countP_cons, ih]
      omega

/-- `toToken` drops an account exactly when its metadata resolution
throws. -/
theorem toToken_isNone (env : Env) (a : TokenAccount) :
    (App.toToken env a).isNone = resolutionFails env a := by
  cases h : env.getTokenMetadata a <;> simp [App.toToken, resolutionFails, h]

/-- C4: a token enumeration over N accounts of which exactly K fail
metadata resolution produces exactly N − K entries, and every produced
entry comes from an account whose resolution succeeded. -/
theorem fetchTokens_drops_failed_metadata (env : Env) (w : Wallet) (s : App.AppState)
    (pk : String) (accounts : List TokenAccount)
    (hpk : w.publicKey = some pk)
    (hacc : env.parsedTokenAccountsByOwner = .ok accounts) :
    (App.fetchTokens env w s).1.userTokens.length
        = accounts.length - accounts.countP (resolutionFails env) ∧
    ∀ t ∈ (App.fetchTokens env w s).1.userTokens,
      ∃ a ∈ accounts, resolutionFails env a = false ∧ App.toToken env a = some t := by
  have hres : (App.fetchTokens env w s).1.userTokens
      = accounts.filterMap (App.toToken env) := by
    simp [App.fetchTokens, hpk, hacc]
  constructor
  · rw [hres, length_filterMap_eq_sub]
    have hfun : (fun a => (App.toToken env a).isNone) = resolutionFails env :=
      funext (toToken_isNone env)
    rw [hfun]
  · intro t ht
    rw [hres] at ht
    obtain ⟨a, ha, hfa⟩ := List.mem_filterMap.mp ht
    refine ⟨a, ha, ?_, hfa⟩
    have h1 := toToken_isNone env a
    rw [hfa] at h1
    simpa using h1.symm

theorem fetchTokens_drops_failed_metadata_witness :
    (App.fetchTokens sampleEnvOk sampleWallet sampleState).1.userTokens.length
        = sampleTokenAccounts.length
            - sampleTokenAccounts.countP (resolutionFails sampleEnvOk) ∧
    ∃ a ∈ sampleTokenAccounts,
      resolutionFails sampleEnvOk a = false ∧
        App.toToken sampleEnvOk a
          = some { name := "GoldCoin", symbol := "GLD",
                   balance := 2039280, pubKey := "ACC1" } :=
  ⟨(fetchTokens_drops_failed_metadata sampleEnvOk sampleWallet sampleState
      "PK" sampleTokenAccounts rfl rfl).1,
   (fetchTokens_drops_failed_metadata sampleEnvOk sampleWallet sampleState
      "PK" sampleTokenAccounts rfl rfl).2
     { name := "GoldCoin", symbol := "GLD", balance := 2039280, pubKey := "ACC1" }
     (by decide)⟩

/-- C10: every token holding the enumeration assembles stores, in its
`balance` field, the lamport balance of the enumerated account itself —
so whenever that account's lamports differ from the token amount it
holds, the stored balance is not the token amount. -/
theorem token_balance_is_account_lamports (env : Env) (w : Wallet) (s : App.AppState)
    (pk : String) (accounts : List TokenAccount)
    (hpk : w.publicKey = some pk)
    (hacc : env.parsedTokenAccountsByOwner = .ok accounts) :
    ∀ t ∈ (App.fetchTokens env w s).1.userTokens,
      ∃ a ∈ accounts, t.balance = a.lamports ∧ t.pubKey = a.pubkey ∧
        (a.lamports ≠ a.tokenAmount → t.balance ≠ a.tokenAmount) := by
  have hres : (App.fetchTokens env w s).1.userTokens
      = accounts.filterMap (App.toToken env) := by
    simp [App.fetchTokens, hpk, hacc]
  intro t ht
  rw [hres] at ht
  obtain ⟨a, ha, hfa⟩ := List.mem_filterMap.mp ht
  refine ⟨a, ha, ?_⟩
  cases hm : env.getTokenMetadata a with
  | error e => simp [App.toToken, hm] at hfa
  | ok m =>
    simp only [App.toToken, hm, Option.some.injEq] at hfa
    subst hfa
    exact ⟨rfl, rfl, fun h => h⟩

theorem token_balance_is_account_lamports_witness :
    ∃ a ∈ sampleTokenAccounts,
      (Token.mk "GoldCoin" "GLD" 2039280 "ACC1").balance = a.lamports ∧
      (Token.mk "GoldCoin" "GLD" 2039280 "ACC1").pubKey = a.pubkey ∧
      (a.lamports ≠ a.tokenAmount →
        (Token.mk "GoldCoin" "GLD" 2039280 "ACC1").balance ≠ a.tokenAmount) :=
  token_balance_is_account_lamports sampleEnvOk sampleWallet sampleState
    "PK" sampleTokenAccounts rfl rfl
    (Token.mk "GoldCoin" "GLD" 2039280 "ACC1") (by decide)

end WalletDash
